import Mathlib

/-!
Verification development for the mipix camera core (Go).

The Go sources are shallowly embedded here:
- `TicksDuration` (an unsigned 32-bit tick count, whose maximum representable
  value is the `maxUint32` constant used by the code) is modelled as `Nat`
  together with explicit `% 2^32` wrap-around at every arithmetic site.
- `float64` values are modelled as rationals (`ℚ`); the Go conversion
  `TicksDuration(f)` of a non-negative float is modelled as `truncQ`
  (truncation toward zero).
- Fallible code (Go `panic`) is modelled with `Option`: `none` is a panic.
- The pluggable strategies (trackers, zoomers, shakers) are interface values
  in Go; they are modelled as explicit function parameters, and a shaker
  binding (`shaker.Shaker`, only ever compared against `nil` and stored) is
  modelled as `Option Nat`, a reference identifier where `none` is Go `nil`.
-/

namespace Mipix

/-- Modulus of the 32-bit unsigned `TicksDuration` values. -/
def U32 : Nat := 4294967296

/-- The `maxUint32` constant from `misc.go`. -/
def maxUint32 : Nat := 4294967295

/-- Wrap-around addition of two `uint32` values (both `< U32`). -/
def add32 (a b : Nat) : Nat := (a + b) % U32

/-- Wrap-around subtraction of two `uint32` values (both `< U32`). -/
def sub32 (a b : Nat) : Nat := (a + U32 - b) % U32

/-- Go conversion of a non-negative `float64` to an unsigned integer type:
truncation toward zero. Every use site in the embedded code passes a
non-negative rational, where truncation is `Int.floor`. -/
def truncQ (q : ℚ) : Nat := q.floor.toNat

/-- Go conversion `int(f)` of a `float64`: truncation toward zero. -/
def truncZ (q : ℚ) : Int := if 0 ≤ q then q.floor else q.ceil

/-- State of `shakerChannel` (`controller_shaker_channel.go`). The
`shaker shaker.Shaker` interface field is modelled as `Option Nat` (`none` is
Go `nil`); the remaining fields mirror the Go struct. -/
structure ShakerChannel where
  shakerRef : Option Nat := none
  elapsed : Nat := 0
  fadeIn : Nat := 0
  duration : Nat := 0
  fadeOut : Nat := 0
  offsetX : ℚ := 0
  offsetY : ℚ := 0
  wasActive : Bool := false
deriving DecidableEq, Repr

namespace ShakerChannel

/-- The Go zero value of `shakerChannel` (all fields zero, `shaker` nil). -/
def zeroValue : ShakerChannel := {}

/-- Embeds `shakerChannel.Activity`. -/
def Activity (c : ShakerChannel) : ℚ :=
  if c.elapsed = 0 then 0
  else if c.elapsed < c.fadeIn then (c.elapsed : ℚ) / (c.fadeIn : ℚ)
  else
    -- here `elapsed ≥ fadeIn`, so the uint32 subtraction cannot wrap
    let e := c.elapsed - c.fadeIn
    if e ≤ c.duration then 1
    else
      let e2 := e - c.duration
      if c.fadeOut ≤ e2 then 0
      else 1 - (e2 : ℚ) / (c.fadeOut : ℚ)

/-- Embeds `shakerChannel.IsFadingIn`. -/
def IsFadingIn (c : ShakerChannel) : Bool :=
  decide (0 < c.elapsed) && decide (c.elapsed ≤ c.fadeIn)

/-- Embeds `shakerChannel.IsFadingOut` (the two sums are uint32 additions). -/
def IsFadingOut (c : ShakerChannel) : Bool :=
  let toFadeOut := add32 c.fadeIn c.duration
  decide (toFadeOut ≤ c.elapsed) && decide (c.elapsed < add32 toFadeOut c.fadeOut)

/-- Embeds `shakerChannel.IsShaking`. -/
def IsShaking (c : ShakerChannel) : Bool :=
  if c.elapsed = 0 then decide (0 < c.fadeIn) || decide (0 < c.duration)
  else if c.elapsed < c.duration then true
  else decide (c.elapsed < add32 (add32 c.fadeIn c.duration) c.fadeOut)

/-- Embeds `shakerChannel.Start`. The Go code captures `Activity()` before
mutating the fields and then sets
`elapsed = TicksDuration(float64(fadeIn) * activity)`. -/
def Start (c : ShakerChannel) (fadeIn : Nat) : ShakerChannel :=
  if c.fadeIn = fadeIn ∧ IsFadingIn c then c
  else
    let activity := Activity c
    { c with
      fadeIn := fadeIn
      duration := maxUint32
      fadeOut := 0
      elapsed := truncQ ((fadeIn : ℚ) * activity) }

/-- Embeds `shakerChannel.End`. All the tick arithmetic is uint32 arithmetic
(in particular `elapsed - fadeIn` wraps around when called mid-fade-in). -/
def End (c : ShakerChannel) (fadeOut : Nat) : ShakerChannel :=
  if c.fadeOut = fadeOut ∧ IsFadingOut c then c
  else
    let activity := Activity c
    let duration := sub32 c.elapsed c.fadeIn
    let elapsed1 := add32 c.fadeIn duration
    let elapsed2 := add32 elapsed1 (truncQ ((fadeOut : ℚ) * (1 - activity)))
    { c with duration := duration, fadeOut := fadeOut, elapsed := elapsed2 }

/-- Embeds `shakerChannel.Trigger`: `Start(fadeIn)` then overwriting
`duration` and `fadeOut`. -/
def Trigger (c : ShakerChannel) (fadeIn duration fadeOut : Nat) : ShakerChannel :=
  let c1 := Start c fadeIn
  { c1 with duration := duration, fadeOut := fadeOut }

/-- Embeds `shakerChannel.Update`. `shakerImpl` gives the behaviour of
`GetShakeOffsets` for a shaker reference (`none` selects the process-wide
default shaker, used for channel 0); `tickRate` is the controller's `uint64`
tick rate, converted to `TicksDuration` by truncation mod `2^32`. The
termination call `GetShakeOffsets(0.0)` only matters for the strategy's
internal state and its result is discarded, exactly as in the source. -/
def Update (c : ShakerChannel) (index : Nat) (tickRate : Nat)
    (shakerImpl : Option Nat → ℚ → ℚ × ℚ) : ShakerChannel :=
  if c.shakerRef = none ∧ index ≠ 0 then c
  else if IsShaking c then
    let activity := Activity c
    let o := shakerImpl c.shakerRef activity
    { c with
      wasActive := true
      offsetX := o.1
      offsetY := o.2
      elapsed := add32 c.elapsed (tickRate % U32) }
  else if c.wasActive then
    { c with offsetX := 0, offsetY := 0, wasActive := false }
  else c

end ShakerChannel

/-- One `shakerChannel.Update` call's parameters, as issued by the controller
loop: the channel index, the `uint64` tick rate, and the behaviour of the
shaker strategies during the call. -/
structure UpdateCall where
  index : Nat
  tickRate : Nat
  shakerImpl : Option Nat → ℚ → ℚ × ℚ

/-- A sequence of `shakerChannel.Update` calls applied in order. -/
def applyUpdates (c : ShakerChannel) (ops : List UpdateCall) : ShakerChannel :=
  ops.foldl (fun ch op => ShakerChannel.Update ch op.index op.tickRate op.shakerImpl) c

/-- Embeds the generic helper `setAt` from `misc.go`, specialized to the
shaker-channel bank (its only use modelled here). The two capacity-dependent
branches of the Go code are modelled by their value-level effect: slots
between the old length and `index` come up as the zero value. (At this call
site the only slots the within-capacity branch can re-expose are channels
previously trimmed by the nil-shaker compaction, which have a nil `shaker`
exactly like the zero value.) -/
def setAt (slice : List ShakerChannel) (element : ShakerChannel) (index : Nat) :
    List ShakerChannel :=
  if index < slice.length then slice.set index element
  else slice ++ List.replicate (index - slice.length) ShakerChannel.zeroValue ++ [element]

/-- The trailing-nil count computed by the compaction loop in
`cameraSetShaker`: consecutive channels with a nil shaker at the end of the
bank, never counting channel 0 (the loop stops at `i > 0`). -/
def trailingNilCount (l : List ShakerChannel) : Nat :=
  min (l.reverse.takeWhile (fun c => c.shakerRef = none)).length (l.length - 1)

/-- The trailing compaction step of `cameraSetShaker`. -/
def compactTrailingNil (l : List ShakerChannel) : List ShakerChannel :=
  if 0 < trailingNilCount l then l.take (l.length - trailingNilCount l) else l

/-- Go `image.Rectangle` restricted to what the camera uses: the four integer
coordinates. -/
structure Rect where
  minX : Int
  minY : Int
  maxX : Int
  maxY : Int
deriving DecidableEq, Repr

/-- Embeds Go `image.Rect`, including its canonicalization (swapping the
coordinates when given in the wrong order). -/
def imageRect (x0 y0 x1 y1 : Int) : Rect :=
  let p := if x1 < x0 then (x1, x0) else (x0, x1)
  let q := if y1 < y0 then (y1, y0) else (y0, y1)
  ⟨p.1, q.1, p.2, q.2⟩

/-- Embeds `internal.BestFitFloat`. Pointer arguments (`*float64`) are
`Option ℚ` with `none` for Go `nil`; the result is `none` exactly when the
dynamic-scaling branch would dereference a nil pointer (the repository always
passes non-nil pointers there). -/
def BestFitFloat (dynamicScale : Bool) (layoutWidth layoutHeight : Int)
    (renderWidth : ℚ) (renderHeight contextWidth contextHeight : Option ℚ)
    (allowBelowOne : Bool) : Option ℚ :=
  let sx : ℚ :=
    match contextWidth with
    | none => (layoutWidth : ℚ) / renderWidth
    | some cw => cw / renderWidth
  let rHeight : ℚ :=
    match renderHeight with
    | none => renderWidth
    | some rh => rh
  let sy : ℚ :=
    match contextHeight with
    | none => (layoutHeight : ℚ) / rHeight
    | some ch => ch / rHeight
  if dynamicScale then
    match contextWidth, contextHeight, renderHeight with
    | some cw, some ch, some rh =>
      let sx := if layoutWidth < truncZ cw ∨ layoutWidth < truncZ renderWidth then
          (layoutWidth : ℚ) / renderWidth
        else sx
      let sy := if layoutHeight < truncZ ch ∨ layoutHeight < truncZ rh then
          (layoutHeight : ℚ) / rh
        else sy
      some (if allowBelowOne then min sx sy else max 1 (min sx sy))
    | _, _, _ => none
  else
    some (if allowBelowOne then min sx sy else max 1 (min sx sy))

/-- Embeds `tracker.Instant.Update` (`instantTracker.Update`). -/
def instantTrackerUpdate (currentX currentY targetX targetY prevSpeedX prevSpeedY : ℚ) :
    ℚ × ℚ :=
  (targetX - currentX, targetY - currentY)

/-- Behaviour of the pluggable strategies during one controller step. The Go
controller resolves its tracker and zoomer through
`cameraGetInternalTracker` / `cameraGetInternalZoomer` (bound strategy or a
lazily-created default); `trackerFn` / `zoomerFn` model the strategy
actually in effect. `zoomerFn` returns `none` when the Go strategy returns
NaN. `shakerImpl` maps a shaker binding (`none` is the default shaker) to
its `GetShakeOffsets` behaviour, and `ups` is `Tick().UPS()`. -/
structure Env where
  trackerFn : ℚ → ℚ → ℚ → ℚ → ℚ → ℚ → ℚ × ℚ
  zoomerFn : ℚ → ℚ → Option ℚ
  shakerImpl : Option Nat → ℚ → ℚ × ℚ
  ups : Nat

/-- State of the Go `controller` struct, restricted to the fields the camera
operations modelled here read or write. Field defaults are the Go zero
values. -/
structure Controller where
  logicalWidth : Nat := 0
  logicalHeight : Nat := 0
  hiResWidth : Nat := 0
  hiResHeight : Nat := 0
  inDraw : Bool := false
  redrawManaged : Bool := false
  needsRedraw : Bool := false
  stretchingEnabled : Bool := false
  keepAspectRatio : Bool := false
  dynamicScaling : Bool := false
  bestFitRenderSizeX : ℚ := 0
  bestFitRenderSizeY : ℚ := 0
  bestFitContextSizeX : ℚ := 0
  bestFitContextSizeY : ℚ := 0
  lastFlushCoordinatesTick : Nat := 0
  cameraArea : Rect := ⟨0, 0, 0, 0⟩
  trackerCurrentX : ℚ := 0
  trackerCurrentY : ℚ := 0
  trackerTargetX : ℚ := 0
  trackerTargetY : ℚ := 0
  trackerPrevSpeedX : ℚ := 0
  trackerPrevSpeedY : ℚ := 0
  zoomCurrent : ℚ := 0
  zoomTarget : ℚ := 0
  shakerChannels : List ShakerChannel := []
  shakerOffsetX : ℚ := 0
  shakerOffsetY : ℚ := 0
  currentTick : Nat := 0
  tickRate : Nat := 0
deriving DecidableEq, Repr

namespace Controller

/-- Embeds `controller.cameraAreaF64`. The result is `none` only on the
unreachable nil-pointer path inside `BestFitFloat`. -/
def cameraAreaF64 (s : Controller) : Option (ℚ × ℚ × ℚ × ℚ) :=
  let zoomedWidth : ℚ := (s.logicalWidth : ℚ) / s.zoomCurrent
  let zoomedHeight : ℚ := (s.logicalHeight : ℚ) / s.zoomCurrent
  let dims : Option (ℚ × ℚ) :=
    if s.stretchingEnabled ∧ s.keepAspectRatio then
      match BestFitFloat s.dynamicScaling (s.hiResWidth : Int) (s.hiResHeight : Int)
          s.bestFitRenderSizeX (some s.bestFitRenderSizeY)
          (some s.bestFitContextSizeX) (some s.bestFitContextSizeY) true with
      | none => none
      | some scale =>
        some ((s.hiResWidth : ℚ) / scale / s.zoomCurrent,
              (s.hiResHeight : ℚ) / scale / s.zoomCurrent)
    else some (zoomedWidth, zoomedHeight)
  match dims with
  | none => none
  | some (w, h) =>
    let minX := s.trackerCurrentX - w / 2 + s.shakerOffsetX
    let minY := s.trackerCurrentY - h / 2 + s.shakerOffsetY
    some (minX, minY, minX + w, minY + h)

/-- Embeds `controller.updateCameraArea` (`math.Floor` on the min corner,
`math.Ceil` on the max corner, then `image.Rect`). -/
def updateCameraArea (s : Controller) : Option Controller :=
  match cameraAreaF64 s with
  | none => none
  | some (minX, minY, maxX, maxY) =>
    some { s with cameraArea := imageRect minX.floor minY.floor maxX.ceil maxY.ceil }

/-- Embeds `controller.cameraNotifyCoordinates` (`none` is the in-draw
panic). -/
def cameraNotifyCoordinates (s : Controller) (x y : ℚ) : Option Controller :=
  if s.inDraw then none
  else some { s with trackerTargetX := x, trackerTargetY := y }

/-- Embeds `controller.updateZoom`. The Go code panics when the zoomer
returns NaN (`zoomerFn` result `none`) and when the updated zoom leaves
`[0.005, 500]`. -/
def updateZoom (env : Env) (s : Controller) : Option Controller :=
  match env.zoomerFn s.zoomCurrent s.zoomTarget with
  | none => none
  | some change =>
    let zoom := s.zoomCurrent + change
    if zoom < 5 / 1000 ∨ 500 < zoom then none
    else
      some { s with
        zoomCurrent := zoom
        needsRedraw := s.needsRedraw || (s.redrawManaged && decide (change ≠ 0)) }

/-- Embeds `controller.updateTracking`. -/
def updateTracking (env : Env) (s : Controller) : Controller :=
  let change := env.trackerFn s.trackerCurrentX s.trackerCurrentY
    s.trackerTargetX s.trackerTargetY s.trackerPrevSpeedX s.trackerPrevSpeedY
  let updateDelta : ℚ := 1 / (env.ups : ℚ)
  let prevSpeedX := change.1 / updateDelta
  let prevSpeedY := change.2 / updateDelta
  { s with
    trackerCurrentX := s.trackerCurrentX + change.1
    trackerCurrentY := s.trackerCurrentY + change.2
    trackerPrevSpeedX := prevSpeedX
    trackerPrevSpeedY := prevSpeedY
    needsRedraw := s.needsRedraw ||
      (s.redrawManaged && (decide (prevSpeedX ≠ 0) || decide (prevSpeedY ≠ 0))) }

/-- Updates the channel bank in index order, as the loop in
`controller.updateShake` does. -/
def updateChannelsFrom (tickRate : Nat) (impl : Option Nat → ℚ → ℚ × ℚ) :
    Nat → List ShakerChannel → List ShakerChannel
  | _, [] => []
  | i, c :: rest =>
    ShakerChannel.Update c i tickRate impl :: updateChannelsFrom tickRate impl (i + 1) rest

/-- Embeds `controller.updateShake`. -/
def updateShake (env : Env) (s : Controller) : Controller :=
  let newChannels := updateChannelsFrom s.tickRate env.shakerImpl 0 s.shakerChannels
  let offsetX := (newChannels.map (fun c => c.offsetX)).sum
  let offsetY := (newChannels.map (fun c => c.offsetY)).sum
  { s with
    shakerChannels := newChannels
    shakerOffsetX := offsetX
    shakerOffsetY := offsetY
    needsRedraw := s.needsRedraw ||
      (s.redrawManaged &&
        (decide (offsetX ≠ s.shakerOffsetX) || decide (offsetY ≠ s.shakerOffsetY))) }

/-- Embeds `controller.cameraFlushCoordinates`: the per-tick guard, then
`updateZoom`, `updateTracking`, `updateShake`, `updateCameraArea`. -/
def cameraFlushCoordinates (env : Env) (s : Controller) : Option Controller :=
  if s.lastFlushCoordinatesTick = s.currentTick then some s
  else
    match updateZoom env { s with lastFlushCoordinatesTick := s.currentTick } with
    | none => none
    | some s2 => updateCameraArea (updateShake env (updateTracking env s2))

/-- Embeds `controller.shakerChannelAccessible`. -/
def shakerChannelAccessible (s : Controller) (channel : Nat) : Bool :=
  decide (channel = 0) ||
    match s.shakerChannels[channel]? with
    | none => false
    | some c => decide (c.shakerRef ≠ none)

/-- Embeds `controller.cameraSetShaker`. `newShaker` is the shaker binding
(`none` is Go `nil`); `none` results are the in-draw and multiple-channel
panics (plus the out-of-range indexing of `shakerChannels[0]` on an empty
bank, which the controller's initialization makes unreachable). -/
def cameraSetShaker (s : Controller) (newShaker : Option Nat) (channels : List Nat) :
    Option Controller :=
  if s.inDraw then none
  else
    match channels with
    | [] =>
      match s.shakerChannels with
      | [] => none
      | c :: rest => some { s with shakerChannels := { c with shakerRef := newShaker } :: rest }
    | [ch] =>
      let index := ch
      if newShaker = none ∧ s.shakerChannels.length ≤ index then some s
      else
        let newChan : ShakerChannel := { ShakerChannel.zeroValue with shakerRef := newShaker }
        let bank := setAt s.shakerChannels newChan index
        some { s with shakerChannels := compactTrailingNil bank }
    | _ => none

/-- Embeds `controller.cameraGetShaker`. The outer `Option` is the panic
(`none` on more than one channel, or indexing an empty bank); the inner
`Option Nat` is the returned shaker binding, `none` for Go `nil`. -/
def cameraGetShaker (s : Controller) (channels : List Nat) : Option (Option Nat) :=
  match channels with
  | [] =>
    match s.shakerChannels with
    | [] => none
    | c :: _ => some c.shakerRef
  | [ch] =>
    if s.shakerChannels.length ≤ ch then some none
    else
      match s.shakerChannels[ch]? with
      | none => none
      | some c => some c.shakerRef
  | _ => none

/-- Embeds the public accessor `AccessorCamera.GetShaker` from the API
surface: its body is `return pkgController.cameraGetShaker()` — the variadic
channel arguments it receives are not forwarded. -/
def accessorGetShaker (s : Controller) (channels : List Nat) : Option (Option Nat) :=
  cameraGetShaker s []

/-- Embeds `controller.cameraIsShaking` (`none` is the more-than-one-channel
panic or an out-of-range indexing). -/
def cameraIsShaking (s : Controller) (channels : List Nat) : Option Bool :=
  match channels with
  | [] => some (s.shakerChannels.any (fun c => ShakerChannel.IsShaking c))
  | [ch] =>
    if !shakerChannelAccessible s ch then some false
    else
      match s.shakerChannels[ch]? with
      | none => none
      | some c => some (ShakerChannel.IsShaking c)
  | _ => none

end Controller

end Mipix

namespace Mipix

/-- A channel whose tick envelope is fully zeroed: this is the state
`Trigger(0,0,0)` leaves behind, and `Update` never leaves it. -/
def Quiet (c : ShakerChannel) : Prop :=
  c.elapsed = 0 ∧ c.fadeIn = 0 ∧ c.duration = 0 ∧ c.fadeOut = 0

/-- Offsets behaviour used in the concrete shaker scenarios: a strategy that
always reports zero offsets. -/
def zeroOffsets : Option Nat → ℚ → ℚ × ℚ := fun _ _ => (0, 0)

/-- Concrete mid-fade-in channel: fresh channel, `Start(3)`, then one tick.
Its activity is `1/3`. -/
def midFadeThird : ShakerChannel :=
  ShakerChannel.Update (ShakerChannel.Start .zeroValue 3) 0 1 zeroOffsets

/-- One tick of channel 0 at tick rate 1 with zero offsets. -/
def tick1 (c : ShakerChannel) : ShakerChannel :=
  ShakerChannel.Update c 0 1 zeroOffsets

/-- Concrete channel for scenario C: fresh channel, `Start(10)`, then five
ticks at tick rate 1. -/
def scenarioCAfter5 : ShakerChannel :=
  tick1 (tick1 (tick1 (tick1 (tick1 (ShakerChannel.Start .zeroValue 10)))))

/-- Environment with the `Instant` tracker bound, a zoomer that keeps the
zoom fixed (zero delta), zero-offset shakers and 60 updates per second. -/
def simpleEnv : Env :=
  { trackerFn := instantTrackerUpdate
    zoomerFn := fun _ _ => some 0
    shakerImpl := zeroOffsets
    ups := 60 }

/-- Environment whose zoomer strategy returns NaN. -/
def nanEnv : Env :=
  { trackerFn := instantTrackerUpdate
    zoomerFn := fun _ _ => none
    shakerImpl := zeroOffsets
    ups := 60 }

/-- Concrete controller: logical resolution 128×72, stretching disabled,
zoom 1, one pristine shaker channel, tick 1 not yet flushed. -/
def baseController : Controller :=
  { logicalWidth := 128
    logicalHeight := 72
    zoomCurrent := 1
    zoomTarget := 1
    shakerChannels := [ShakerChannel.zeroValue]
    currentTick := 1
    lastFlushCoordinatesTick := 0
    tickRate := 1 }

/-- The state `baseController` reaches after one coordinate flush under
`simpleEnv` (tracker target still at the origin). -/
def baseFlushed : Controller :=
  { baseController with
    lastFlushCoordinatesTick := 1
    cameraArea := ⟨-64, -36, 64, 36⟩ }

/-- The state `baseController` reaches after `SetShaker(shaker 3, channel 2)`:
the bank grows to three channels, the gap filled with zero values. -/
def c10After : Controller :=
  { baseController with
    shakerChannels :=
      [ShakerChannel.zeroValue, ShakerChannel.zeroValue,
        { ShakerChannel.zeroValue with shakerRef := some 3 }] }

/-- Invariant of the shaker-channel bank: when the bank has more than one
channel, its last channel has a non-nil bound shaker. -/
def lastBoundOk (l : List ShakerChannel) : Prop :=
  1 < l.length → ∀ c, l.getLast? = some c → c.shakerRef ≠ none

namespace ShakerChannel

/-- Helper: the Batteries `Rat.floor` used by `truncQ` agrees with the
`Int.floor` of the `FloorRing` instance on `ℚ`. -/
theorem rat_floor_eq_intFloor (q : ℚ) : q.floor = ⌊q⌋ := rfl

/-- Helper: `Activity` is non-negative on every channel state. -/
theorem activity_nonneg (c : ShakerChannel) : 0 ≤ Activity c := by
  simp only [Activity]
  split_ifs with h1 h2 h3 h4
  · exact le_refl 0
  · positivity
  · exact zero_le_one
  · exact le_refl 0
  · rw [sub_nonneg]
    have hfo : 0 < c.fadeOut := by omega
    rw [div_le_one (by exact_mod_cast hfo)]
    exact_mod_cast (by omega : c.elapsed - c.fadeIn - c.duration ≤ c.fadeOut)

/-- Helper: `Activity` is at most one on every channel state. -/
theorem activity_le_one (c : ShakerChannel) : Activity c ≤ 1 := by
  simp only [Activity]
  split_ifs with h1 h2 h3 h4
  · exact zero_le_one
  · have hfi : 0 < c.fadeIn := by omega
    rw [div_le_one (by exact_mod_cast hfi)]
    exact_mod_cast Nat.le_of_lt h2
  · exact le_refl 1
  · exact zero_le_one
  · have : (0:ℚ) ≤ (c.elapsed - c.fadeIn - c.duration : ℕ) / (c.fadeOut : ℚ) := by positivity
    linarith

/-- Helper: a channel state reached by `Trigger(0,0,0)` has an all-zero tick
envelope. -/
theorem trigger_zero_quiet (c : ShakerChannel) : Quiet (Trigger c 0 0 0) := by
  have hguard : ¬(c.fadeIn = 0 ∧ IsFadingIn c = true) := by
    rintro ⟨h0, hfad⟩
    simp only [IsFadingIn, h0, Bool.and_eq_true, decide_eq_true_eq] at hfad
    omega
  simp [Quiet, Trigger, Start, if_neg hguard, truncQ, rat_floor_eq_intFloor]

/-- Helper: a quiet channel reports `IsShaking() == false`. -/
theorem quiet_isShaking_false {c : ShakerChannel} (h : Quiet c) : IsShaking c = false := by
  obtain ⟨h1, h2, h3, _⟩ := h
  simp [IsShaking, h1, h2, h3]

/-- Helper: `Update` never changes the tick envelope of a quiet channel. -/
theorem update_preserves_quiet {c : ShakerChannel} (index tickRate : Nat)
    (shakerImpl : Option Nat → ℚ → ℚ × ℚ) (h : Quiet c) :
    Quiet (Update c index tickRate shakerImpl) := by
  obtain ⟨h1, h2, h3, h4⟩ := h
  unfold Update
  split_ifs with g1 g2 g3
  · exact ⟨h1, h2, h3, h4⟩
  · rw [quiet_isShaking_false ⟨h1, h2, h3, h4⟩] at g2
    cases g2
  · exact ⟨h1, h2, h3, h4⟩
  · exact ⟨h1, h2, h3, h4⟩

/-- Helper: an arbitrary sequence of `Update` calls keeps a quiet channel
quiet. -/
theorem applyUpdates_preserves_quiet (ops : List UpdateCall) :
    ∀ c : ShakerChannel, Quiet c → Quiet (applyUpdates c ops) := by
  induction ops with
  | nil => intro c h; exact h
  | cons op rest ih =>
    intro c h
    simpa [applyUpdates] using
      ih _ (update_preserves_quiet op.index op.tickRate op.shakerImpl h)

end ShakerChannel

/-- C1: for every shaker channel state (in particular every state reachable
through `Start`, `End`, `Trigger` and `Update`), `Activity()` lies in the
closed interval `[0, 1]`. -/
theorem activity_mem_unit_interval (c : ShakerChannel) :
    0 ≤ ShakerChannel.Activity c ∧ ShakerChannel.Activity c ≤ 1 :=
  ⟨ShakerChannel.activity_nonneg c, ShakerChannel.activity_le_one c⟩

/-- C2 counterexample: a `Start` call issued mid-fade does not preserve
`Activity()` up to floating-point tolerance. On the reachable state
`midFadeThird` (fresh channel, `Start(3)`, one tick; activity `1/3`),
calling `Start(2)` truncates the reparametrized elapsed value
`2 * (1/3)` to `0`, so the activity jumps discontinuously from `1/3`
to `0`. -/
theorem start_midfade_activity_jump_cex :
    ShakerChannel.Activity midFadeThird = 1 / 3 ∧
      ShakerChannel.Activity (ShakerChannel.Start midFadeThird 2) = 0 ∧
      ShakerChannel.Activity midFadeThird -
          ShakerChannel.Activity (ShakerChannel.Start midFadeThird 2) = 1 / 3 := by
  have hmid : midFadeThird =
      { shakerRef := none, elapsed := 1, fadeIn := 3, duration := maxUint32,
        fadeOut := 0, offsetX := 0, offsetY := 0, wasActive := true } := by
    norm_num [midFadeThird, zeroOffsets, ShakerChannel.Update, ShakerChannel.Start,
      ShakerChannel.Activity, ShakerChannel.IsShaking, ShakerChannel.IsFadingIn,
      ShakerChannel.zeroValue, truncQ, ShakerChannel.rat_floor_eq_intFloor,
      add32, U32, maxUint32]
  rw [hmid]
  refine ⟨?_, ?_, ?_⟩ <;>
    norm_num [ShakerChannel.Start, ShakerChannel.Activity, ShakerChannel.IsFadingIn,
      truncQ, ShakerChannel.rat_floor_eq_intFloor, maxUint32]

/-- C2 (amended): a `Start(f)` call with `f > 0` never increases
`Activity()` and decreases it by strictly less than `1/f` (the truncation
step of the reparametrized elapsed value); exact preservation of
`Activity()` across arbitrary `Start`/`End`/`Trigger` calls does not hold. -/
theorem start_activity_reparam_bound (c : ShakerChannel) (f : Nat) (hf : 0 < f) :
    ShakerChannel.Activity (ShakerChannel.Start c f) ≤ ShakerChannel.Activity c ∧
      ShakerChannel.Activity c - ShakerChannel.Activity (ShakerChannel.Start c f)
        < 1 / (f : ℚ) := by
  have hfQ : (0 : ℚ) < (f : ℚ) := by exact_mod_cast hf
  have hinv : (0 : ℚ) < 1 / (f : ℚ) := by positivity
  by_cases hguard : c.fadeIn = f ∧ ShakerChannel.IsFadingIn c = true
  · rw [ShakerChannel.Start, if_pos hguard]
    exact ⟨le_refl _, by linarith⟩
  · rw [ShakerChannel.Start, if_neg hguard]
    have ha0 : 0 ≤ ShakerChannel.Activity c := ShakerChannel.activity_nonneg c
    have ha1 : ShakerChannel.Activity c ≤ 1 := ShakerChannel.activity_le_one c
    set a := ShakerChannel.Activity c with haDef
    have hfl0 : (0 : ℤ) ≤ ⌊(f : ℚ) * a⌋ := Int.floor_nonneg.mpr (by positivity)
    have hcast : ((truncQ ((f : ℚ) * a) : ℕ) : ℚ) = (⌊(f : ℚ) * a⌋ : ℚ) := by
      rw [truncQ, ShakerChannel.rat_floor_eq_intFloor]
      exact_mod_cast congrArg (fun z : ℤ => (z : ℚ)) (Int.toNat_of_nonneg hfl0)
    set n : ℕ := truncQ ((f : ℚ) * a) with hnDef
    have hnle : (n : ℚ) ≤ (f : ℚ) * a := by rw [hcast]; exact Int.floor_le _
    have hnlt : (f : ℚ) * a < (n : ℚ) + 1 := by rw [hcast]; exact Int.lt_floor_add_one _
    have hnf : n ≤ f := by
      by_contra hcon
      push_neg at hcon
      have : (f : ℚ) < (n : ℚ) := by exact_mod_cast hcon
      nlinarith
    by_cases hn0 : n = 0
    · have hA : ShakerChannel.Activity
          { c with fadeIn := f, duration := maxUint32, fadeOut := 0, elapsed := n } = 0 := by
        simp [ShakerChannel.Activity, hn0]
      rw [hA]
      refine ⟨ha0, ?_⟩
      rw [sub_zero, lt_div_iff hfQ]
      have : (n : ℚ) = 0 := by exact_mod_cast hn0
      nlinarith
    · by_cases hnltf : n < f
      · have hA : ShakerChannel.Activity
            { c with fadeIn := f, duration := maxUint32, fadeOut := 0, elapsed := n }
            = (n : ℚ) / (f : ℚ) := by
          simp [ShakerChannel.Activity, hn0, hnltf]
        rw [hA]
        constructor
        · rw [div_le_iff hfQ]
          nlinarith
        · rw [sub_lt_iff_lt_add, div_add_div_same, lt_div_iff hfQ]
          nlinarith
      · have hnf2 : n = f := le_antisymm hnf (Nat.le_of_not_lt hnltf)
        have hf0 : n ≠ 0 := hn0
        have hA : ShakerChannel.Activity
            { c with fadeIn := f, duration := maxUint32, fadeOut := 0, elapsed := n } = 1 := by
          simp [ShakerChannel.Activity, hn0, hnf2, hf.ne']
        rw [hA]
        have ha1' : 1 ≤ a := by
          have : (f : ℚ) ≤ (f : ℚ) * a := by
            rw [hnf2] at hnle
            exact hnle
          nlinarith
        exact ⟨ha1', by linarith⟩

/-- C2 witness: the amended bound instantiated at the concrete mid-fade
state `midFadeThird` and `Start(10)`. -/
theorem start_activity_reparam_bound_witness :
    0 < 10 ∧
      (ShakerChannel.Activity (ShakerChannel.Start midFadeThird 10) ≤
          ShakerChannel.Activity midFadeThird ∧
        ShakerChannel.Activity midFadeThird -
            ShakerChannel.Activity (ShakerChannel.Start midFadeThird 10)
          < 1 / ((10 : ℕ) : ℚ)) :=
  ⟨by norm_num, start_activity_reparam_bound midFadeThird 10 (by norm_num)⟩

/-- C3: scenario C. Fresh channel, `Start(10)`, five ticks at tick rate 1
(activity `0.5`), then `Start(20)`: the activity immediately after the
second `Start` call is exactly `0.5` (the elapsed value is reparametrized
to `20 * 0.5 = 10`, not kept stale). -/
theorem restart_midfade_preserves_half_activity :
    ShakerChannel.Activity scenarioCAfter5 = 1 / 2 ∧
      ShakerChannel.Activity (ShakerChannel.Start scenarioCAfter5 20) = 1 / 2 := by
  have h5 : scenarioCAfter5 =
      { shakerRef := none, elapsed := 5, fadeIn := 10, duration := maxUint32,
        fadeOut := 0, offsetX := 0, offsetY := 0, wasActive := true } := by
    norm_num [scenarioCAfter5, tick1, zeroOffsets, ShakerChannel.Update,
      ShakerChannel.Start, ShakerChannel.Activity, ShakerChannel.IsShaking,
      ShakerChannel.IsFadingIn, ShakerChannel.zeroValue, truncQ,
      ShakerChannel.rat_floor_eq_intFloor, add32, U32, maxUint32]
  rw [h5]
  have h10 : Int.toNat 10 = 10 := rfl
  constructor <;>
    norm_num [ShakerChannel.Start, ShakerChannel.Activity, ShakerChannel.IsFadingIn,
      truncQ, ShakerChannel.rat_floor_eq_intFloor, maxUint32, h10]

/-- C8: `Trigger(0,0,0)` never makes `IsShaking()` true: it is false at the
moment of the call (`ops = []`) and after any sequence of `Update` calls. -/
theorem trigger_zero_never_shaking (c : ShakerChannel) (ops : List UpdateCall) :
    ShakerChannel.IsShaking (applyUpdates (ShakerChannel.Trigger c 0 0 0) ops) = false :=
  ShakerChannel.quiet_isShaking_false
    (ShakerChannel.applyUpdates_preserves_quiet ops _ (ShakerChannel.trigger_zero_quiet c))

/-- Helper: the Batteries `Rat.ceil` used by the camera-area rounding agrees
with the `Int.ceil` of the `FloorRing` instance on `ℚ`. -/
theorem rat_ceil_eq_intCeil (q : ℚ) : q.ceil = ⌈q⌉ := by
  rw [Rat.ceil]
  split_ifs with h
  · have hq : (q.num : ℚ) = q := by
      conv_rhs => rw [← Rat.num_div_den q]
      rw [h, Nat.cast_one, div_one]
    conv_rhs => rw [← hq]
    rw [Int.ceil_intCast]
  · have hfl : q.num / (q.den : ℤ) = ⌊q⌋ := Rat.floor_def.symm
    have hne : ((⌊q⌋ : ℤ) : ℚ) ≠ q := by
      intro hh
      apply h
      rw [← hh, Rat.den_intCast]
    rw [hfl]
    symm
    rw [Int.ceil_eq_iff]
    constructor
    · push_cast
      have h1 := Int.floor_le q
      have h2 := lt_of_le_of_ne h1 hne
      linarith
    · push_cast
      have h3 := Int.lt_floor_add_one q
      linarith

namespace Controller

/-- Helper: `updateTracking` touches neither the flush-guard tick nor the
current tick. -/
theorem updateTracking_tick_eq (env : Env) (s : Controller) :
    (updateTracking env s).lastFlushCoordinatesTick = s.lastFlushCoordinatesTick ∧
      (updateTracking env s).currentTick = s.currentTick := by
  simp [updateTracking]

/-- Helper: `updateShake` touches neither the flush-guard tick nor the
current tick. -/
theorem updateShake_tick_eq (env : Env) (s : Controller) :
    (updateShake env s).lastFlushCoordinatesTick = s.lastFlushCoordinatesTick ∧
      (updateShake env s).currentTick = s.currentTick := by
  simp [updateShake]

/-- Helper: a successful `updateZoom` touches neither the flush-guard tick
nor the current tick. -/
theorem updateZoom_tick_eq (env : Env) (s s' : Controller)
    (h : updateZoom env s = some s') :
    s'.lastFlushCoordinatesTick = s.lastFlushCoordinatesTick ∧
      s'.currentTick = s.currentTick := by
  unfold updateZoom at h
  cases hz : env.zoomerFn s.zoomCurrent s.zoomTarget with
  | none => rw [hz] at h; cases h
  | some change =>
    simp only [hz] at h
    split_ifs at h
    simp only [Option.some.injEq] at h
    subst h
    exact ⟨rfl, rfl⟩

/-- Helper: a successful `updateCameraArea` touches neither the flush-guard
tick nor the current tick. -/
theorem updateCameraArea_tick_eq (s s' : Controller)
    (h : updateCameraArea s = some s') :
    s'.lastFlushCoordinatesTick = s.lastFlushCoordinatesTick ∧
      s'.currentTick = s.currentTick := by
  unfold updateCameraArea at h
  cases ha : cameraAreaF64 s with
  | none => rw [ha] at h; cases h
  | some quad =>
    obtain ⟨mnx, mny, mxx, mxy⟩ := quad
    simp only [ha, Option.some.injEq] at h
    subst h
    exact ⟨rfl, rfl⟩

end Controller

/-- C4: once `cameraFlushCoordinates` has run during the current tick, a
second call within the same tick is a no-op: it returns the state unchanged
through the last-flushed-tick guard, so the camera area (integer rectangle
and float bounds, both functions of the state) is identical after both
calls. -/
theorem flush_idempotent_within_tick (env : Env) (s s' : Controller)
    (h : Controller.cameraFlushCoordinates env s = some s') :
    Controller.cameraFlushCoordinates env s' = some s' := by
  unfold Controller.cameraFlushCoordinates at h ⊢
  by_cases hg : s.lastFlushCoordinatesTick = s.currentTick
  · rw [if_pos hg] at h
    simp only [Option.some.injEq] at h
    subst h
    rw [if_pos hg]
  · rw [if_neg hg] at h
    cases hz : Controller.updateZoom env { s with lastFlushCoordinatesTick := s.currentTick } with
    | none => rw [hz] at h; cases h
    | some s2 =>
      simp only [hz] at h
      have t1 := Controller.updateZoom_tick_eq env _ s2 hz
      have t2 := Controller.updateTracking_tick_eq env s2
      have t3 := Controller.updateShake_tick_eq env (Controller.updateTracking env s2)
      have t4 := Controller.updateCameraArea_tick_eq _ s' h
      have hL : s'.lastFlushCoordinatesTick = s.currentTick := by
        rw [t4.1, t3.1, t2.1, t1.1]
      have hC : s'.currentTick = s.currentTick := by
        rw [t4.2, t3.2, t2.2, t1.2]
      rw [if_pos (hL.trans hC.symm)]

/-- C4 witness: the idempotence of the flush at the concrete state
`baseController` under `simpleEnv`: the first flush produces `baseFlushed`,
and flushing `baseFlushed` again inside the same tick returns it
unchanged. -/
theorem flush_idempotent_within_tick_witness :
    Controller.cameraFlushCoordinates simpleEnv baseController = some baseFlushed ∧
      Controller.cameraFlushCoordinates simpleEnv baseFlushed = some baseFlushed := by
  have hc64 : (64 : ℚ).ceil = 64 := by
    rw [rat_ceil_eq_intCeil, show ((64 : ℚ)) = ((64 : ℤ) : ℚ) by norm_num, Int.ceil_intCast]
  have hc36 : (36 : ℚ).ceil = 36 := by
    rw [rat_ceil_eq_intCeil, show ((36 : ℚ)) = ((36 : ℤ) : ℚ) by norm_num, Int.ceil_intCast]
  have h : Controller.cameraFlushCoordinates simpleEnv baseController = some baseFlushed := by
    norm_num [Controller.cameraFlushCoordinates, Controller.updateZoom,
      Controller.updateTracking, Controller.updateShake, Controller.updateChannelsFrom,
      Controller.updateCameraArea, Controller.cameraAreaF64, imageRect,
      ShakerChannel.Update, ShakerChannel.IsShaking, ShakerChannel.zeroValue,
      simpleEnv, nanEnv, baseController, baseFlushed, instantTrackerUpdate, zeroOffsets,
      ShakerChannel.rat_floor_eq_intFloor, hc64, hc36]
  exact ⟨h, flush_idempotent_within_tick simpleEnv baseController baseFlushed h⟩

/-- C5: `updateZoom` panics when the zoomer strategy returns NaN, and panics
when the updated zoom leaves `[0.005, 500]`; consequently every `updateZoom`
call that returns normally leaves the current zoom inside `[0.005, 500]`. -/
theorem updateZoom_nan_panics_and_zoom_bounded :
    (∀ (env : Env) (s : Controller),
        env.zoomerFn s.zoomCurrent s.zoomTarget = none → Controller.updateZoom env s = none) ∧
      ∀ (env : Env) (s s' : Controller), Controller.updateZoom env s = some s' →
        5 / 1000 ≤ s'.zoomCurrent ∧ s'.zoomCurrent ≤ 500 := by
  constructor
  · intro env s h
    unfold Controller.updateZoom
    rw [h]
  · intro env s s' h
    unfold Controller.updateZoom at h
    cases hz : env.zoomerFn s.zoomCurrent s.zoomTarget with
    | none => rw [hz] at h; cases h
    | some change =>
      simp only [hz] at h
      split_ifs at h with hb
      push_neg at hb
      simp only [Option.some.injEq] at h
      subst h
      exact ⟨hb.1, hb.2⟩

/-- C5 witness: a NaN-returning zoomer makes `updateZoom` panic at
`baseController`, and a normally-returning `updateZoom` (under `simpleEnv`,
where it returns the state itself) leaves the zoom inside the bounds. -/
theorem updateZoom_nan_panics_and_zoom_bounded_witness :
    Controller.updateZoom nanEnv baseController = none ∧
      (5 / 1000 ≤ baseController.zoomCurrent ∧ baseController.zoomCurrent ≤ 500) := by
  have h : Controller.updateZoom simpleEnv baseController = some baseController := by
    norm_num [Controller.updateZoom, simpleEnv, baseController]
  exact ⟨updateZoom_nan_panics_and_zoom_bounded.1 nanEnv baseController rfl,
    updateZoom_nan_panics_and_zoom_bounded.2 simpleEnv baseController baseController h⟩

/-- C6: scenario A. With logical resolution 128×72, stretching disabled,
zoom fixed at 1, the `Instant` tracker bound and no active shake,
`NotifyCoordinates(10, 0)` followed by one coordinate flush yields the
integer camera area rectangle `[-54, -36, 74, 36]`, centered at `(10, 0)`. -/
theorem instant_tracker_centered_area :
    ((Controller.cameraNotifyCoordinates baseController 10 0).bind
        (Controller.cameraFlushCoordinates simpleEnv)).map Controller.cameraArea
      = some ⟨-54, -36, 74, 36⟩ := by
  have hc74 : (74 : ℚ).ceil = 74 := by
    rw [rat_ceil_eq_intCeil, show ((74 : ℚ)) = ((74 : ℤ) : ℚ) by norm_num, Int.ceil_intCast]
  have hc36 : (36 : ℚ).ceil = 36 := by
    rw [rat_ceil_eq_intCeil, show ((36 : ℚ)) = ((36 : ℤ) : ℚ) by norm_num, Int.ceil_intCast]
  norm_num [Controller.cameraNotifyCoordinates, Controller.cameraFlushCoordinates,
    Controller.updateZoom, Controller.updateTracking, Controller.updateShake,
    Controller.updateChannelsFrom, Controller.updateCameraArea, Controller.cameraAreaF64,
    imageRect, ShakerChannel.Update, ShakerChannel.IsShaking, ShakerChannel.zeroValue,
    simpleEnv, baseController, instantTrackerUpdate, zeroOffsets,
    ShakerChannel.rat_floor_eq_intFloor, hc74, hc36, Option.bind]

/-- C7: `BestFitFloat` with dynamic scaling disabled. In the clamped case
(`allowBelowOne = false`) the result is at least 1 whenever the layout is at
least the render size (in fact unconditionally, by the `max 1` clamp). In
the unclamped case (`allowBelowOne = true`, the camera-area configuration
where both context pointers and the render-height pointer are non-nil) the
result is exactly the context-to-render ratio `min (ctxW/renderW)
(ctxH/renderH)`; when both axes share one ratio, exactly that ratio. -/
theorem bestFit_clamped_ge_one_and_unclamped_exact :
    (∀ (layoutW layoutH : Int) (renderW : ℚ) (renderH ctxW ctxH : Option ℚ) (v : ℚ),
        renderW ≤ (layoutW : ℚ) → renderH.getD renderW ≤ (layoutH : ℚ) →
        BestFitFloat false layoutW layoutH renderW renderH ctxW ctxH false = some v →
        1 ≤ v) ∧
      ∀ (layoutW layoutH : Int) (renderW renderH ctxW ctxH : ℚ),
        0 < renderW → 0 < renderH → 0 < ctxW → 0 < ctxH →
        BestFitFloat false layoutW layoutH renderW (some renderH) (some ctxW) (some ctxH) true
            = some (min (ctxW / renderW) (ctxH / renderH)) ∧
          (ctxW / renderW = ctxH / renderH →
            BestFitFloat false layoutW layoutH renderW (some renderH) (some ctxW) (some ctxH)
                true
              = some (ctxW / renderW)) := by
  constructor
  · intro lw lh rW rH cW cH v _ _ h
    unfold BestFitFloat at h
    simp only [Bool.false_eq_true, if_false, Option.some.injEq] at h
    subst h
    exact le_max_left 1 _
  · intro lw lh rW rH cW cH _ _ _ _
    refine ⟨rfl, fun hEq => ?_⟩
    show some (min (cW / rW) (cH / rH)) = some (cW / rW)
    rw [← hEq, min_self]

/-- C7 witness: the clamped bound at layout `100×100`, render size `50`
(result 2 ≥ 1), and the unclamped exact ratio at render `50×50`, context
`25×100` (result `min (1/2) 2`, below 1). -/
theorem bestFit_clamped_ge_one_and_unclamped_exact_witness :
    (BestFitFloat false 100 100 50 none none none false = some 2 ∧ (1 : ℚ) ≤ 2) ∧
      BestFitFloat false 100 100 50 (some 50) (some 25) (some 100) true
        = some (min ((25 : ℚ) / 50) ((100 : ℚ) / 50)) := by
  have h1 : BestFitFloat false 100 100 50 none none none false = some 2 := by
    norm_num [BestFitFloat]
  refine ⟨⟨h1, ?_⟩, ?_⟩
  · exact bestFit_clamped_ge_one_and_unclamped_exact.1 100 100 50 none none none 2
      (by norm_num) (by norm_num [Option.getD]) h1
  · exact (bestFit_clamped_ge_one_and_unclamped_exact.2 100 100 50 50 25 100
      (by norm_num) (by norm_num) (by norm_num) (by norm_num)).1

/-- C9: at the failing input (two channel identifiers), the internal
controller helpers `cameraSetShaker` and `cameraIsShaking` panic as the
claim demands, but the public accessor `AccessorCamera.GetShaker` does not:
its body drops the variadic channel arguments and forwards no channels, so
it silently returns the channel-0 shaker instead of panicking, contradicting
its own documentation ("Passing multiple channels will make the function
panic"). -/
theorem getShaker_accessor_ignores_channels :
    Controller.cameraSetShaker baseController (some 1) [0, 1] = none ∧
      Controller.cameraIsShaking baseController [0, 1] = none ∧
      Controller.cameraGetShaker baseController [0, 1] = none ∧
      Controller.accessorGetShaker baseController [0, 1] = some none := by
  refine ⟨?_, ?_, ?_, ?_⟩ <;>
    simp [Controller.cameraSetShaker, Controller.cameraIsShaking,
      Controller.cameraGetShaker, Controller.accessorGetShaker, baseController,
      ShakerChannel.zeroValue]

/-- Helper: where `takeWhile` stops before the end of the list, the element
at the stopping index fails the predicate. -/
theorem takeWhile_stop {α : Type} (p : α → Bool) :
    ∀ l : List α, (l.takeWhile p).length < l.length →
      ∃ a, l[(l.takeWhile p).length]? = some a ∧ p a = false := by
  intro l
  induction l with
  | nil => intro h; simp at h
  | cons x t ih =>
    intro h
    by_cases hp : p x
    · rw [List.takeWhile_cons_of_pos hp] at h ⊢
      simp only [List.length_cons] at h
      obtain ⟨a, ha, hpa⟩ := ih (Nat.lt_of_succ_lt_succ h)
      refine ⟨a, ?_, hpa⟩
      simp only [List.length_cons, List.getElem?_cons_succ]
      exact ha
    · rw [List.takeWhile_cons_of_neg hp] at h ⊢
      refine ⟨x, ?_, by simpa using hp⟩
      simp

/-- Helper: the trailing compaction never empties the bank. -/
theorem compactTrailingNil_length (l : List ShakerChannel) (h : 1 ≤ l.length) :
    1 ≤ (compactTrailingNil l).length := by
  unfold compactTrailingNil trailingNilCount
  split_ifs with hk
  · simp only [List.length_take]
    omega
  · exact h

/-- Helper: after the trailing compaction, a bank with more than one channel
ends in a channel with a non-nil shaker. -/
theorem compactTrailingNil_lastBoundOk (l : List ShakerChannel) :
    lastBoundOk (compactTrailingNil l) := by
  intro hlen c hc
  unfold compactTrailingNil at hlen hc
  split_ifs at hlen hc with hk
  · -- compaction branch
    have hm1 : 1 ≤ l.length := by
      by_contra hm
      push_neg at hm
      have hl0 : l.length = 0 := by omega
      have : trailingNilCount l = 0 := by
        unfold trailingNilCount
        omega
      omega
    set m := l.length with hmDef
    set w := (l.reverse.takeWhile (fun ch => ch.shakerRef = none)).length with hwDef
    have hkEq : trailingNilCount l = min w (m - 1) := rfl
    rw [hkEq] at hk hlen hc
    rw [List.length_take] at hlen
    rcases le_total w (m - 1) with hle | hle
    · rw [min_eq_left hle] at hk hlen hc
      have hwm : w < l.reverse.length := by rw [List.length_reverse]; omega
      obtain ⟨a, ha, hpa⟩ := takeWhile_stop _ l.reverse hwm
      rw [List.getLast?_eq_getElem?, List.length_take] at hc
      have hidx : min (m - w) m - 1 = m - w - 1 := by omega
      rw [hidx, List.getElem?_take_of_lt (by omega : m - w - 1 < m - w)] at hc
      rw [List.getElem?_reverse (by omega : w < l.length)] at ha
      have hsame : l.length - 1 - w = m - w - 1 := by omega
      rw [hsame, hc] at ha
      have hca : c = a := Option.some.inj ha
      rw [hca]
      simpa using hpa
    · rw [min_eq_right hle] at hk hlen
      omega
  · -- no-compaction branch
    have hk0 : trailingNilCount l = 0 := by omega
    unfold trailingNilCount at hk0
    have hw0 : (l.reverse.takeWhile (fun ch => ch.shakerRef = none)).length = 0 := by
      omega
    have hnil : l.reverse.takeWhile (fun ch => ch.shakerRef = none) = [] :=
      List.length_eq_zero.mp hw0
    have hhead : l.reverse.head? = some c := by rw [List.head?_reverse]; exact hc
    cases hrev : l.reverse with
    | nil => rw [hrev] at hhead; cases hhead
    | cons a t =>
      rw [hrev] at hhead hnil
      have hac : a = c := by simpa using hhead
      by_cases hpa : a.shakerRef = none
      · rw [List.takeWhile_cons_of_pos (by simpa using hpa)] at hnil
        cases hnil
      · rw [← hac]
        exact hpa

/-- Helper: `setAt` never returns an empty bank. -/
theorem setAt_length_pos (l : List ShakerChannel) (e : ShakerChannel) (i : Nat) :
    1 ≤ (setAt l e i).length := by
  unfold setAt
  split_ifs with h
  · rw [List.length_set]; omega
  · simp only [List.length_append, List.length_replicate, List.length_cons,
      List.length_nil]
    omega

/-- C10: the shaker-channel bank invariants of `cameraSetShaker`. Channel 0
is never removed (the bank keeps at least one channel); immediately after
every successful call, when the bank has more than one channel, its last
channel has a non-nil bound shaker; and calling with a nil shaker on a
channel index at or beyond the current bank length leaves the controller
unchanged. -/
theorem setShaker_bank_invariants (s : Controller) (ref : Option Nat)
    (channels : List Nat) (s' : Controller)
    (hlen : 1 ≤ s.shakerChannels.length) (hok : lastBoundOk s.shakerChannels)
    (h : Controller.cameraSetShaker s ref channels = some s') :
    1 ≤ s'.shakerChannels.length ∧ lastBoundOk s'.shakerChannels ∧
      ∀ idx, ref = none → channels = [idx] → s.shakerChannels.length ≤ idx → s' = s := by
  unfold Controller.cameraSetShaker at h
  split_ifs at h with hdraw
  cases channels with
  | nil =>
    cases hbank : s.shakerChannels with
    | nil => rw [hbank] at h; cases h
    | cons c0 rest =>
      rw [hbank] at h
      simp only [Option.some.injEq] at h
      subst h
      refine ⟨by simp, ?_, ?_⟩
      · intro hl c hc
        cases rest with
        | nil => simp at hl
        | cons r t =>
          rw [List.getLast?_cons_cons] at hc
          exact hok (by rw [hbank]; simpa using hl) c
            (by rw [hbank, List.getLast?_cons_cons]; exact hc)
      · intro idx _ hch _
        exact absurd hch (by simp)
  | cons ch rest2 =>
    cases rest2 with
    | nil =>
      dsimp only at h
      split_ifs at h with hguard
      · simp only [Option.some.injEq] at h
        subst h
        exact ⟨hlen, hok, fun idx _ _ _ => rfl⟩
      · simp only [Option.some.injEq] at h
        subst h
        refine ⟨?_, ?_, ?_⟩
        · exact compactTrailingNil_length _ (setAt_length_pos _ _ _)
        · exact compactTrailingNil_lastBoundOk _
        · intro idx href hch hidx
          exfalso
          apply hguard
          have hchidx : ch = idx := by simpa using hch
          exact ⟨href, by rw [hchidx]; exact hidx⟩
    | cons _ _ => cases h

/-- C10 witness: the invariants instantiated at `baseController` and the
call `SetShaker(shaker 3, channel 2)`, which grows the bank to `c10After`. -/
theorem setShaker_bank_invariants_witness :
    1 ≤ c10After.shakerChannels.length ∧ lastBoundOk c10After.shakerChannels ∧
      ∀ idx, (some 3 : Option Nat) = none → [2] = [idx] →
        baseController.shakerChannels.length ≤ idx → c10After = baseController := by
  have h : Controller.cameraSetShaker baseController (some 3) [2] = some c10After := by
    simp [Controller.cameraSetShaker, setAt, compactTrailingNil, trailingNilCount,
      baseController, c10After, ShakerChannel.zeroValue, List.takeWhile_cons]
  exact setShaker_bank_invariants baseController (some 3) [2] c10After
    (by simp [baseController]) (fun hl => absurd hl (by simp [baseController])) h

end Mipix
